import Mathlib

/-!
Verification of `src/web/data.py` (DataHeavyApp).

The module reads per-publication word-frequency records from an ordered
document store, paginates them with a composite-key checkpoint, derives a
stable image URL path from an MD5 hash of the publication id, renders a word
cloud, and writes the bytes to blob storage.

Shallow embedding conventions:
* A Firestore `ent` sub-collection is a `List WordCount`; the backend's
  `order_by('count', DESCENDING).order_by('word')` is modelled by sorting the
  list with `keyLE`, `start_after {word, count}` by the documented
  "strictly after these field values" filter, and `limit(n)` by `List.take`.
* Python `None` is `Option.none`; a `Tuple[str, int]` checkpoint argument is
  an `Option (Option String × Option Nat)`.
* Python runtime exceptions are `Except.error` values of `PyError`.
* Machine-independent Python integers are `Nat` (all counts are ≥ 0).
-/

/-- A word-count record: one document of a publication's `ent` sub-collection,
as yielded by `WordCount(doc.get('word'), doc.get('count'))`. -/
structure WordCount where
  word : String
  count : Nat
deriving DecidableEq

/-- Python runtime errors raised by the embedded code paths. -/
inductive PyError where
  | typeError
  | nameError (missing : String)
  | valueError (msg : String)
deriving DecidableEq

/-- Strict lexicographic comparison of character lists by Unicode code point:
the document backend's ascending order on the string `word` field. -/
def lexLt : List Char → List Char → Bool
  | [], [] => false
  | [], _ :: _ => true
  | _ :: _, [] => false
  | a :: as, b :: bs =>
    if a.toNat < b.toNat then true
    else if b.toNat < a.toNat then false
    else lexLt as bs

/-- Predicate `wordLt`: `wordLt a b = true` states that string `a` is strictly before `b` in the backend's
ascending string order. -/
def wordLt (a b : String) : Bool := lexLt a.data b.data

/-- Relation `keyLE`: `keyLE r s` states that record `r` sorts no later than `s` under the query's composite
order `order_by('count', DESCENDING), order_by('word')` (count descending,
then word ascending). -/
def keyLE (r s : WordCount) : Prop :=
  s.count < r.count ∨ (s.count = r.count ∧ wordLt s.word r.word = false)

instance : DecidableRel keyLE := fun r s =>
  inferInstanceAs
    (Decidable (s.count < r.count ∨ (s.count = r.count ∧ wordLt s.word r.word = false)))

/-- Predicate `afterKey`: `afterKey c w s` states that record `s` lies strictly after the composite key
`(count := c, word := w)` in the query order; this is what the backend's
`start_after {word: w, count: c}` cursor keeps. -/
def afterKey (c : Nat) (w : String) (s : WordCount) : Prop :=
  s.count < c ∨ (s.count = c ∧ wordLt w s.word = true)

instance (c : Nat) (w : String) : DecidablePred (afterKey c w) := fun s =>
  inferInstanceAs (Decidable (s.count < c ∨ (s.count = c ∧ wordLt w s.word = true)))

/-- Strict version of the composite order: `r` sorts strictly before `s`. -/
def keyLT (r s : WordCount) : Prop :=
  afterKey r.count r.word s

/-- Embeds the checkpoint handling of `DataStorage.word_counts`
(`src/web/data.py` lines 84-93): `checkpoint = checkpoint or (None, None)`
(a 2-tuple is always truthy, so only `None` is replaced), unpack into
`(word, count)`, then `if word and count is not None` build the cursor dict,
`else` the empty dict.  A Python `str` is truthy iff it is nonempty. -/
def parse_checkpoint (cp : Option (Option String × Option Nat)) :
    Option (String × Nat) :=
  match cp.getD (none, none) with
  | (some w, some c) => if w = "" then none else some (w, c)
  | _ => none

/-- The query `db.collection('publications').document(publ).collection('ent')`
with both `order_by` clauses and the optional `start_after` cursor applied
(`src/web/data.py` lines 95-101), before the `limit`.  `ents` is the list of
documents of the `ent` sub-collection. -/
def seekRes (ents : List WordCount)
    (cp : Option (Option String × Option Nat)) : List WordCount :=
  let sorted := List.insertionSort keyLE ents
  match parse_checkpoint cp with
  | none => sorted
  | some (w, c) => sorted.filter fun s => decide (afterKey c w s)

/-- Embeds `DataStorage.word_counts` (`src/web/data.py` lines 77-104) for a
publication whose `ent` sub-collection holds `ents`: checkpoint parsing, the
composite-ordered query with optional exclusive cursor, and `limit(top_n)`.
The generator's output is the materialized list of yielded `WordCount`s. -/
def DataStorage.word_counts (ents : List WordCount) (top_n : Nat)
    (checkpoint : Option (Option String × Option Nat)) : List WordCount :=
  (seekRes ents checkpoint).take top_n

/-- The synthetic records `WordCount(f'ent{i}', i)` for `i` in
`range(start, 10)`. -/
def synthRange (start : Nat) : List WordCount :=
  (List.range' start (10 - start)).map fun i => ⟨"ent" ++ toString i, i⟩

/-- Embeds `NoOpDataStorage.word_counts` (`src/web/data.py` lines 121-128).
The publication id and `top_n` are parameters of the Python method but are
never read by its body.  When the checkpoint is neither `None` nor
`(None, None)`, the body computes `checkpoint[1] + 1`; if `checkpoint[1]` is
`None` this raises `TypeError` at the first consumption of the generator,
modelled here as an `Except.error` result. -/
def NoOpDataStorage.word_counts (publ : String) (top_n : Nat)
    (checkpoint : Option (Option String × Option Nat)) :
    Except PyError (List WordCount) :=
  match checkpoint with
  | none => .ok (synthRange 0)
  | some (none, none) => .ok (synthRange 0)
  | some (_, some c) => .ok (synthRange (c + 1))
  | some (_, none) => .error .typeError

/-- The pagination protocol of the spec: call `word_counts` with page size `k`,
take the `(word, count)` of the last record of each page as the next call's
checkpoint, stop at the first empty page, and concatenate the pages.  `fuel`
bounds the number of calls so that the process is total even on stores where
the protocol loops. -/
def paginateAux (ents : List WordCount) (k : Nat)
    (cp : Option (Option String × Option Nat)) : Nat → List WordCount
  | 0 => []
  | fuel + 1 =>
    let page := DataStorage.word_counts ents k cp
    match page.getLast? with
    | none => []
    | some r => page ++ paginateAux ents k (some (some r.word, some r.count)) fuel

/-- Concatenation of successive checkpointed pages starting from no checkpoint;
`ents.length + 1` calls always suffice for a well-behaved store. -/
def paginate (ents : List WordCount) (k : Nat) : List WordCount :=
  paginateAux ents k none (ents.length + 1)

/-- The scenario store of spec §8.9: the `ent` records of publication `"vox"`. -/
def voxEnts : List WordCount :=
  [⟨"apple", 30⟩, ⟨"banana", 20⟩, ⟨"cherry", 10⟩]

/-! ### MD5 (the `hashlib.md5` collaborator)

`image_url_path` names the artifact `hashlib.md5(pub_id.encode()).hexdigest()`.
The full MD5 algorithm (RFC 1321) over the UTF-8 bytes of the id is embedded
below so that the derived paths are concrete strings. -/

/-- UTF-8 encoding of one character, as Python's `str.encode()` produces. -/
def utf8Bytes (c : Char) : List Nat :=
  let n := c.toNat
  if n < 128 then [n]
  else if n < 2048 then
    [192 ||| (n >>> 6), 128 ||| (n &&& 63)]
  else if n < 65536 then
    [224 ||| (n >>> 12), 128 ||| ((n >>> 6) &&& 63), 128 ||| (n &&& 63)]
  else
    [240 ||| (n >>> 18), 128 ||| ((n >>> 12) &&& 63),
     128 ||| ((n >>> 6) &&& 63), 128 ||| (n &&& 63)]

/-- The UTF-8 byte sequence of a string (each byte a `Nat` below 256). -/
def strBytes (s : String) : List Nat :=
  (s.data.map utf8Bytes).flatten

/-- Truncation to a 32-bit word. -/
def w32 (n : Nat) : Nat := n % 4294967296

/-- Left-rotation of a 32-bit word `x` (assumed `< 2^32`) by `s` bits. -/
def rotl32 (x s : Nat) : Nat := w32 ((x <<< s) ||| (x >>> (32 - s)))

/-- The MD5 sine-derived round constants `K[0..63]`. -/
def md5K : List Nat :=
  [3614090360, 3905402710, 606105819, 3250441966, 4118548399, 1200080426,
   2821735955, 4249261313, 1770035416, 2336552879, 4294925233, 2304563134,
   1804603682, 4254626195, 2792965006, 1236535329, 4129170786, 3225465664,
   643717713, 3921069994, 3593408605, 38016083, 3634488961, 3889429448,
   568446438, 3275163606, 4107603335, 1163531501, 2850285829, 4243563512,
   1735328473, 2368359562, 4294588738, 2272392833, 1839030562, 4259657740,
   2763975236, 1272893353, 4139469664, 3200236656, 681279174, 3936430074,
   3572445317, 76029189, 3654602809, 3873151461, 530742520, 3299628645,
   4096336452, 1126891415, 2878612391, 4237533241, 1700485571, 2399980690,
   4293915773, 2240044497, 1873313359, 4264355552, 2734768916, 1309151649,
   4149444226, 3174756917, 718787259, 3951481745]

/-- The MD5 per-operation left-rotation amounts `s[0..63]`. -/
def md5S : List Nat :=
  [7, 12, 17, 22, 7, 12, 17, 22, 7, 12, 17, 22, 7, 12, 17, 22,
   5, 9, 14, 20, 5, 9, 14, 20, 5, 9, 14, 20, 5, 9, 14, 20,
   4, 11, 16, 23, 4, 11, 16, 23, 4, 11, 16, 23, 4, 11, 16, 23,
   6, 10, 15, 21, 6, 10, 15, 21, 6, 10, 15, 21, 6, 10, 15, 21]

/-- The MD5 nonlinear function of operation `i` applied to registers
`b`, `c`, `d` (F, G, H, I for the four rounds). -/
def md5F (i b c d : Nat) : Nat :=
  if i < 16 then (b &&& c) ||| ((b ^^^ 4294967295) &&& d)
  else if i < 32 then (d &&& b) ||| ((d ^^^ 4294967295) &&& c)
  else if i < 48 then b ^^^ c ^^^ d
  else c ^^^ (b ||| (d ^^^ 4294967295))

/-- The message-word index read by operation `i`. -/
def md5G (i : Nat) : Nat :=
  if i < 16 then i
  else if i < 32 then (5 * i + 1) % 16
  else if i < 48 then (3 * i + 5) % 16
  else (7 * i) % 16

/-- MD5 padding: append `0x80`, zero-pad to 56 mod 64 bytes, then the 64-bit
little-endian bit length. -/
def md5Pad (msg : List Nat) : List Nat :=
  let len := msg.length
  let z := (119 - len % 64) % 64
  let bits := (8 * len) % 18446744073709551616
  msg ++ [128] ++ List.replicate z 0 ++
    ((List.range 8).map fun i => (bits >>> (8 * i)) &&& 255)

/-- Little-endian 32-bit word number `j` of a 64-byte block. -/
def leWord (block : List Nat) (j : Nat) : Nat :=
  block.getD (4 * j) 0 ||| (block.getD (4 * j + 1) 0 <<< 8) |||
    (block.getD (4 * j + 2) 0 <<< 16) ||| (block.getD (4 * j + 3) 0 <<< 24)

/-- One MD5 operation: rotate the register tuple after adding the round
function, constant, and message word. -/
def md5Step (m : Nat → Nat) (st : Nat × Nat × Nat × Nat) (i : Nat) :
    Nat × Nat × Nat × Nat :=
  let (a, b, c, d) := st
  let f := w32 (md5F i b c d + a + md5K.getD i 0 + m (md5G i))
  (d, w32 (b + rotl32 f (md5S.getD i 0)), b, c)

/-- MD5 compression over `n` successive 64-byte blocks (structural recursion
on the block counter). -/
def md5BlocksGo (regs : Nat × Nat × Nat × Nat) (bytes : List Nat) :
    Nat → Nat × Nat × Nat × Nat
  | 0 => regs
  | n + 1 =>
    let block := bytes.take 64
    let (a0, b0, c0, d0) := regs
    let (a, b1, c1, d1) :=
      (List.range 64).foldl (md5Step (leWord block)) (a0, b0, c0, d0)
    md5BlocksGo (w32 (a0 + a), w32 (b0 + b1), w32 (c0 + c1), w32 (d0 + d1))
      (bytes.drop 64) n

/-- MD5 compression over a padded message (whose length is a multiple of 64). -/
def md5Blocks (regs : Nat × Nat × Nat × Nat) (bytes : List Nat) :
    Nat × Nat × Nat × Nat :=
  md5BlocksGo regs bytes (bytes.length / 64)

/-- One lowercase hexadecimal digit. -/
def hexDigit (n : Nat) : String :=
  String.singleton ("0123456789abcdef".data.getD n '0')

/-- A byte as two lowercase hexadecimal digits. -/
def hexByte (n : Nat) : String := hexDigit (n / 16) ++ hexDigit (n % 16)

/-- Computes `hashlib.md5(s.encode()).hexdigest()`: the lowercase-hex MD5 digest of the
UTF-8 bytes of `s` (digest bytes are the four registers, little-endian). -/
def md5hex (s : String) : String :=
  let (a, b, c, d) :=
    md5Blocks (1732584193, 4023233417, 2562383102, 271733878)
      (md5Pad (strBytes s))
  String.join ((([a, b, c, d].map fun r =>
    (List.range 4).map fun i => (r >>> (8 * i)) &&& 255).flatten).map hexByte)

/-! ### URL path derivation -/

/-- Python `str.split(sep)` for a one-character separator, over the character
list of the string (e.g. `"/img/"` splits into `["", "img", ""]`). -/
def splitChar (sep : Char) (cs : List Char) : List (List Char) :=
  cs.foldr
    (fun c acc =>
      if c = sep then [] :: acc
      else
        match acc with
        | [] => [[c]]
        | g :: gs => (c :: g) :: gs)
    [[]]

/-- The base-path normalization of `image_url_path` (`src/web/data.py` lines
55-62): `path = path or '/'` (an absent or empty base becomes `"/"`), and any
other value is split on `'/'`, its empty segments dropped, and reassembled as
`'/{}/'.format('/'.join(...))`. -/
def normalize_path (path : String) : String :=
  let path := if path = "" then "/" else path
  if path ≠ "/" then
    (('/' :: List.intercalate ['/']
        ((splitChar '/' path.data).filter (· ≠ []))) ++ ['/']).asString
  else path

/-- Models `urllib.parse.urljoin(base, url)` for the inputs this module
produces: `base` an absolute pure path (starting with `'/'`, ending with `'/'`,
not starting with `"//"`, containing no scheme, query, or fragment) and `url`
a bare file name.  Per RFC 3986 the reference is merged onto the base up to
its last slash (here: appended, since the base ends with `'/'`) and dot
segments are removed. -/
def urljoin (base url : String) : String :=
  let segs := (splitChar '/' (base.data ++ url.data)).drop 1
  let out := segs.foldl
    (fun acc seg =>
      if seg = ['.'] then acc
      else if seg = ['.', '.'] then acc.dropLast
      else acc ++ [seg]) ([] : List (List Char))
  ('/' :: List.intercalate ['/'] out).asString

/-- Embeds `image_url_path` (`src/web/data.py` lines 52-64): join the
normalized base path with `f'{hashlib.md5(pub_id.encode()).hexdigest()}.png'`.
An absent base path is the empty string (Python's `None`, which `path or '/'`
also maps to `"/"`). -/
def image_url_path (pub_id : String) (path : String) : String :=
  urljoin (normalize_path path) (md5hex pub_id ++ ".png")

/-! ### Word-cloud rendering -/

/-- The external `wordcloud.WordCloud` collaborator: a sized layout fitted to
a frequency mapping by `WordCloud(height=..., width=...).fit_words(freqs)`.
Its internal layout algorithm is a black box; only the construction
parameters are modelled. -/
structure WordCloudLayout where
  height : Nat
  width : Nat
  freqs : List (String × Nat)
deriving DecidableEq

/-- The external `PIL.Image.Image` produced by `wc.to_image()`; opaque,
tracked by provenance. -/
structure PILImage where
  source : WordCloudLayout
deriving DecidableEq

/-- Black-box rasterization of the layout, `wc.to_image()`. -/
def WordCloudLayout.to_image (wc : WordCloudLayout) : PILImage := ⟨wc⟩

/-- The byte buffer produced by `image_to_byte_array` (`src/web/data.py`
lines 26-30): the image encoded via `image.save(ioba, format=fmt)`; the
encoder is a black box, so the buffer is tracked by provenance. -/
structure EncodedBytes where
  image : PILImage
  fmt : String
deriving DecidableEq

/-- Embeds `image_to_byte_array` (`src/web/data.py` lines 26-30). -/
def image_to_byte_array (image : PILImage) (fmt : String := "png") :
    EncodedBytes :=
  ⟨image, fmt⟩

/-- The three possible return shapes of `generate_word_cloud`. -/
inductive WordCloudResult where
  | raw (wc : WordCloudLayout)
  | image (img : PILImage)
  | bytes (b : EncodedBytes)
deriving DecidableEq

/-- Python `str.lower()` restricted to ASCII letters (every `fmt` value the
claims quantify over is ASCII; Lean's `Char.toLower` lowers exactly `A`-`Z`). -/
def pyLower (s : String) : String := (s.data.map Char.toLower).asString

/-- Embeds `generate_word_cloud` (`src/web/data.py` lines 33-49): build the
sized layout, lowercase `fmt`, and dispatch to one of the three
representations, raising `ValueError('unsupported fmt value.')` otherwise. -/
def generate_word_cloud (freqs : List (String × Nat)) (fmt : String := "bytes")
    (height : Nat := 500) (width : Nat := 500) :
    Except PyError WordCloudResult :=
  let wc : WordCloudLayout := ⟨height, width, freqs⟩
  let fmt := pyLower fmt
  if fmt = "raw" then .ok (.raw wc)
  else if fmt = "image" then .ok (.image wc.to_image)
  else if fmt = "bytes" then .ok (.bytes (image_to_byte_array wc.to_image))
  else .error (.valueError "unsupported fmt value.")

/-! ### Blob storage -/

/-- The names bound at module scope in `src/web/data.py`: its imports and its
top-level definitions, in source order. -/
def dataModuleNames : List String :=
  ["hashlib", "io", "urljoin", "Any", "Dict", "Generator", "Tuple",
   "firestore", "storage", "Blob", "Image", "WordCloud",
   "Publication", "WordCount",
   "get_client", "image_to_byte_array", "generate_word_cloud",
   "image_url_path", "DataStorage", "NoOpDataStorage", "BlobStorage",
   "NoOpBlobStorage"]

/-- Embeds `BlobStorage.save` (`src/web/data.py` lines 139-142).  Its first
statement evaluates `pub_to_url(publ)`, but `pub_to_url` is bound nowhere in
the module (see `dataModuleNames`) and Python name resolution therefore raises
`NameError: name 'pub_to_url' is not defined` before any bucket lookup or
upload is attempted, on every call. -/
def BlobStorage.save (publ bucket : String) (ibytes : List Nat) :
    Except PyError Unit :=
  .error (.nameError "pub_to_url")

/-! ### Properties of the composite sort order -/

set_option maxRecDepth 8000

/-- Irreflexivity of the lexicographic comparison. -/
theorem lexLt_irrefl : ∀ l : List Char, lexLt l l = false
  | [] => rfl
  | a :: as => by simp [lexLt, lexLt_irrefl as]

/-- Asymmetry of the lexicographic comparison. -/
theorem lexLt_asymm : ∀ a b : List Char, lexLt a b = true → lexLt b a = false
  | [], [], h => by simp [lexLt] at h
  | [], _ :: _, _ => rfl
  | _ :: _, [], h => by simp [lexLt] at h
  | a :: as, b :: bs, h => by
    simp only [lexLt] at h ⊢
    by_cases h1 : a.toNat < b.toNat
    · have h2 : ¬ b.toNat < a.toNat := by omega
      simp [h1, h2]
    · by_cases h2 : b.toNat < a.toNat
      · simp [h1, h2] at h
      · simp only [if_neg h1, if_neg h2] at h
        simp [if_neg h1, if_neg h2, lexLt_asymm as bs h]

/-- Transitivity of the reflexive closure of the lexicographic comparison. -/
theorem lexLt_le_trans : ∀ a b c : List Char,
    lexLt b a = false → lexLt c b = false → lexLt c a = false
  | [], [], [], _, _ => rfl
  | [], [], _ :: _, _, _ => rfl
  | _ :: _, [], _, h1, _ => by simp [lexLt] at h1
  | _, _ :: _, [], _, h2 => by simp [lexLt] at h2
  | [], _ :: _, _ :: _, _, _ => rfl
  | x :: as, y :: bs, z :: cs, h1, h2 => by
    simp only [lexLt] at h1 h2 ⊢
    by_cases hyx : y.toNat < x.toNat
    · simp [hyx] at h1
    · by_cases hzy : z.toNat < y.toNat
      · simp [hzy] at h2
      · have hzx : ¬ z.toNat < x.toNat := by omega
        rw [if_neg hzx]
        by_cases hxz : x.toNat < z.toNat
        · simp [hxz]
        · have hxy : ¬ x.toNat < y.toNat := by omega
          have hyz : ¬ y.toNat < z.toNat := by omega
          simp only [if_neg hyx, if_neg hxy] at h1
          simp only [if_neg hzy, if_neg hyz] at h2
          rw [if_neg hxz]
          exact lexLt_le_trans as bs cs h1 h2

/-- Connexity: two lists neither of which lexicographically precedes the other
are equal. -/
theorem lexLt_connex : ∀ a b : List Char,
    lexLt a b = false → lexLt b a = false → a = b
  | [], [], _, _ => rfl
  | [], _ :: _, h1, _ => by simp [lexLt] at h1
  | _ :: _, [], _, h2 => by simp [lexLt] at h2
  | a :: as, b :: bs, h1, h2 => by
    simp only [lexLt] at h1 h2
    by_cases hab : a.toNat < b.toNat
    · simp [hab] at h1
    · by_cases hba : b.toNat < a.toNat
      · simp [hba] at h2
      · have htn : a.toNat = b.toNat := by omega
        have hchar : a = b := Char.ext (UInt32.toNat.inj htn)
        simp only [if_neg hab, if_neg hba] at h1 h2
        rw [hchar, lexLt_connex as bs h1 h2]

/-- Irreflexivity of the strict composite key order. -/
theorem keyLT_irrefl (r : WordCount) : ¬ keyLT r r := by
  simp [keyLT, afterKey, wordLt, lexLt_irrefl]

/-- Asymmetry of the strict composite key order. -/
theorem keyLT_asymm (r s : WordCount) (h : keyLT r s) : ¬ keyLT s r := by
  unfold keyLT afterKey wordLt at h ⊢
  rcases h with h | ⟨hc, hw⟩
  · rintro (h2 | ⟨hc2, _⟩) <;> omega
  · rintro (h2 | ⟨hc2, hw2⟩)
    · omega
    · simp [lexLt_asymm _ _ hw] at hw2

instance : IsTotal WordCount keyLE :=
  ⟨fun r s => by
    unfold keyLE
    rcases Nat.lt_trichotomy s.count r.count with h | h | h
    · exact Or.inl (Or.inl h)
    · by_cases hw : wordLt s.word r.word = true
      · exact Or.inr (Or.inr ⟨h.symm, lexLt_asymm _ _ hw⟩)
      · exact Or.inl (Or.inr ⟨h, by simpa using hw⟩)
    · exact Or.inr (Or.inl h)⟩

instance : IsTrans WordCount keyLE :=
  ⟨fun r s t hrs hst => by
    unfold keyLE at hrs hst ⊢
    rcases hrs with h1 | ⟨h1, hw1⟩ <;> rcases hst with h2 | ⟨h2, hw2⟩
    · exact Or.inl (by omega)
    · exact Or.inl (by omega)
    · exact Or.inl (by omega)
    · exact Or.inr ⟨by omega, lexLt_le_trans _ _ _ hw1 hw2⟩⟩

/-- A non-strict key inequality between records with distinct composite keys
is strict. -/
theorem keyLT_of_keyLE_of_ne (r s : WordCount) (hle : keyLE r s)
    (hne : (r.count, r.word) ≠ (s.count, s.word)) : keyLT r s := by
  unfold keyLE at hle
  unfold keyLT afterKey
  rcases hle with h | ⟨hc, hw⟩
  · exact Or.inl h
  · refine Or.inr ⟨hc, ?_⟩
    by_cases hrs : wordLt r.word s.word = true
    · exact hrs
    · exfalso
      have hrs2 : lexLt r.word.data s.word.data = false := by
        simpa [wordLt] using hrs
      have hdata : r.word.data = s.word.data := lexLt_connex _ _ hrs2 hw
      have hws : r.word = s.word := String.ext hdata
      exact hne (by rw [hws, ← hc])

/-- Seeking past a record `r` of a strictly sorted list keeps exactly the
records after `r`. -/
theorem filter_keyLT_of_pairwise (xs ys : List WordCount) (r : WordCount)
    (h : (xs ++ r :: ys).Pairwise keyLT) :
    (xs ++ r :: ys).filter (fun s => decide (afterKey r.count r.word s)) = ys := by
  rw [List.pairwise_append] at h
  obtain ⟨_, hrys, hcross⟩ := h
  rw [List.pairwise_cons] at hrys
  obtain ⟨hry, _⟩ := hrys
  rw [List.filter_append, List.filter_cons]
  have h1 : List.filter (fun s => decide (afterKey r.count r.word s)) xs = [] := by
    rw [List.filter_eq_nil_iff]
    intro x hx
    simpa using keyLT_asymm x r (hcross x hx r (List.mem_cons_self r ys))
  have h2 : decide (afterKey r.count r.word r) = false := by
    simpa using keyLT_irrefl r
  have h3 : List.filter (fun s => decide (afterKey r.count r.word s)) ys = ys := by
    rw [List.filter_eq_self]
    intro y hy
    simpa using hry y hy
  rw [h1, h2, h3]
  simp

/-- A list sorted by `keyLE` whose composite keys are distinct is strictly
sorted. -/
theorem pairwise_keyLT_of_sorted (l : List WordCount)
    (hs : l.Pairwise keyLE)
    (hn : (l.map fun r => (r.count, r.word)).Nodup) : l.Pairwise keyLT := by
  rw [List.Nodup, List.pairwise_map] at hn
  exact (hs.and hn).imp fun h => keyLT_of_keyLE_of_ne _ _ h.1 h.2

/-- With no usable checkpoint the query returns the whole sorted collection. -/
theorem seekRes_none (ents : List WordCount) :
    seekRes ents none = List.insertionSort keyLE ents := rfl

/-- With a fully populated checkpoint whose word is nonempty, the query
returns the sorted collection filtered to records strictly after the
checkpoint key. -/
theorem seekRes_full (ents : List WordCount) (w : String) (c : Nat)
    (hw : w ≠ "") :
    seekRes ents (some (some w, some c)) =
      (List.insertionSort keyLE ents).filter fun s => decide (afterKey c w s) := by
  simp [seekRes, parse_checkpoint, hw]

/-- Unfolding equation for one pagination step. -/
theorem paginateAux_succ (ents : List WordCount) (k : Nat)
    (cp : Option (Option String × Option Nat)) (fuel : Nat) :
    paginateAux ents k cp (fuel + 1) =
      match (DataStorage.word_counts ents k cp).getLast? with
      | none => []
      | some r => DataStorage.word_counts ents k cp ++
          paginateAux ents k (some (some r.word, some r.count)) fuel := rfl

/-- Main pagination invariant: if the current checkpointed query returns the
suffix `tail` of the sorted collection, the remaining checkpointed pages
concatenate to exactly `tail` (given enough fuel, a positive page size,
strictly sorted keys, and no empty words). -/
theorem paginateAux_covers (ents : List WordCount) (k' : Nat) :
    ∀ fuel (xs tail : List WordCount) (cp : Option (Option String × Option Nat)),
      List.insertionSort keyLE ents = xs ++ tail →
      (List.insertionSort keyLE ents).Pairwise keyLT →
      (∀ r ∈ ents, r.word ≠ "") →
      seekRes ents cp = tail →
      tail.length ≤ fuel * (k' + 1) →
      paginateAux ents (k' + 1) cp fuel = tail := by
  intro fuel
  induction fuel with
  | zero =>
    intro xs tail cp _ _ _ _ hlen
    have htail : tail = [] := List.eq_nil_of_length_eq_zero (by omega)
    simp [paginateAux, htail]
  | succ fuel ih =>
    intro xs tail cp hsplit hpw hwords hseek hlen
    have hpage : DataStorage.word_counts ents (k' + 1) cp = tail.take (k' + 1) := by
      rw [DataStorage.word_counts, hseek]
    cases tail with
    | nil =>
      rw [paginateAux_succ, hpage]
      simp
    | cons t ts =>
      rw [List.take_succ_cons] at hpage
      obtain ⟨q, r, hqr⟩ : ∃ q r, t :: ts.take k' = q ++ [r] :=
        ⟨_, _, (List.dropLast_append_getLast (List.cons_ne_nil t (ts.take k'))).symm⟩
      have hlast : (t :: ts.take k').getLast? = some r := by
        rw [hqr]
        exact List.getLast?_concat q
      have hta : (t :: ts.take k') ++ ts.drop k' = t :: ts := by
        have h := List.take_append_drop (k' + 1) (t :: ts)
        rwa [List.take_succ_cons, List.drop_succ_cons] at h
      have hrmem : r ∈ ents := by
        have h1 : r ∈ t :: ts.take k' := by
          rw [hqr]
          exact List.mem_append_right q (List.mem_cons_self r [])
        have h2 : r ∈ t :: ts :=
          List.cons_subset_cons t (List.take_subset k' ts) h1
        have h3 : r ∈ List.insertionSort keyLE ents := by
          rw [hsplit]
          exact List.mem_append_right xs h2
        simpa using h3
      have hword : r.word ≠ "" := hwords r hrmem
      have hsplit2 : List.insertionSort keyLE ents =
          (xs ++ (t :: ts.take k')) ++ ts.drop k' := by
        rw [hsplit, List.append_assoc, hta]
      have hsplit3 : List.insertionSort keyLE ents =
          (xs ++ q) ++ r :: ts.drop k' := by
        rw [hsplit2, hqr]
        simp
      have hseek2 : seekRes ents (some (some r.word, some r.count)) =
          ts.drop k' := by
        rw [seekRes_full ents _ _ hword, hsplit3]
        exact filter_keyLT_of_pairwise _ _ _ (hsplit3 ▸ hpw)
      have hlen2 : (ts.drop k').length ≤ fuel * (k' + 1) := by
        rw [List.length_drop]
        have h1 : (t :: ts).length ≤ (fuel + 1) * (k' + 1) := hlen
        rw [List.length_cons, Nat.succ_mul] at h1
        generalize fuel * (k' + 1) = F at h1 ⊢
        omega
      have hih := ih (xs ++ (t :: ts.take k')) (ts.drop k') _ hsplit2 hpw hwords
        hseek2 hlen2
      rw [paginateAux_succ, hpage, hlast]
      show (t :: ts.take k') ++
        paginateAux ents (k' + 1) (some (some r.word, some r.count)) fuel = t :: ts
      rw [hih, hta]

/-! ### Claims -/

/-- Claim C1 (amended): for every page size `k > 0` and every store whose
(count descending, word ascending) sort key has no ties and whose records all
have nonempty words, concatenating successive `word_counts` pages, each
checkpointed at the `(word, count)` of the last record of the previous page,
reproduces exactly the full ordered sequence that an unbounded,
checkpoint-free `word_counts` call yields — no duplicates and no gaps. -/
theorem pagination_completeness (ents : List WordCount) (k : Nat) (hk : 0 < k)
    (hkeys : (ents.map fun r => (r.count, r.word)).Nodup)
    (hwords : ∀ r ∈ ents, r.word ≠ "") :
    paginate ents k = DataStorage.word_counts ents ents.length none := by
  obtain ⟨k', rfl⟩ : ∃ k', k = k' + 1 := ⟨k - 1, by omega⟩
  have hperm := List.perm_insertionSort keyLE ents
  have hlen : (List.insertionSort keyLE ents).length = ents.length :=
    hperm.length_eq
  have hnodup :
      ((List.insertionSort keyLE ents).map fun r => (r.count, r.word)).Nodup :=
    ((hperm.map _).nodup_iff).mpr hkeys
  have hpw : (List.insertionSort keyLE ents).Pairwise keyLT :=
    pairwise_keyLT_of_sorted _ (List.sorted_insertionSort keyLE ents) hnodup
  have hrhs : DataStorage.word_counts ents ents.length none =
      List.insertionSort keyLE ents := by
    rw [DataStorage.word_counts, seekRes_none, ← hlen, List.take_length]
  rw [hrhs, paginate]
  refine paginateAux_covers ents k' (ents.length + 1) [] _ none rfl hpw hwords
    (seekRes_none ents) ?_
  rw [hlen]
  have h1 : ents.length ≤ ents.length * (k' + 1) :=
    Nat.le_mul_of_pos_right ents.length (by omega)
  have h2 : ents.length * (k' + 1) ≤ (ents.length + 1) * (k' + 1) :=
    Nat.mul_le_mul_right _ (Nat.le_succ _)
  omega

/-- Concrete instantiation of claim C1's amended theorem on the `"vox"` store
with page size 2. -/
theorem pagination_completeness_witness :
    paginate voxEnts 2 = DataStorage.word_counts voxEnts voxEnts.length none :=
  pagination_completeness voxEnts 2 (by decide) (by decide) (by decide)

/-- Claim C1 as stated is refuted on the tie-free single-record store
`[("", 5)]` with page size 1: the first page is `[("", 5)]`, but
checkpointing at its last record falls back to start-from-beginning (the
empty word is falsy), so the next page repeats the same record and the
concatenation `paginate` yields a duplicate instead of the full one-record
sequence. -/
theorem pagination_completeness_cex :
    DataStorage.word_counts [⟨"", 5⟩] 1 none = [⟨"", 5⟩] ∧
    DataStorage.word_counts [⟨"", 5⟩] 1 (some (some "", some 5)) = [⟨"", 5⟩] ∧
    paginate [⟨"", 5⟩] 1 = [⟨"", 5⟩, ⟨"", 5⟩] ∧
    paginate [⟨"", 5⟩] 1 ≠
      DataStorage.word_counts [⟨"", 5⟩] ([⟨"", 5⟩] : List WordCount).length none :=
  ⟨by decide, by decide, by decide, by decide⟩

/-- Claim C2 (amended): `DataStorage.word_counts` yields at most `n` records
and yields none for `n = 0`; `NoOpDataStorage.word_counts` ignores the
requested bound `n` entirely but always yields at most 10 synthetic records
in total. -/
theorem word_counts_bound (ents : List WordCount) (n : Nat)
    (cp : Option (Option String × Option Nat)) :
    (DataStorage.word_counts ents n cp).length ≤ n ∧
    DataStorage.word_counts ents 0 cp = [] ∧
    (∀ publ l, NoOpDataStorage.word_counts publ n cp = .ok l →
      l.length ≤ 10) := by
  have hsr : ∀ st, (synthRange st).length ≤ 10 := by
    intro st
    simp [synthRange]
  refine ⟨List.length_take_le n _, rfl, ?_⟩
  intro publ l h
  rcases cp with _ | ⟨w, c⟩
  · simp only [NoOpDataStorage.word_counts, Except.ok.injEq] at h
    exact h ▸ hsr 0
  · rcases w with _ | w <;> rcases c with _ | c
    · simp only [NoOpDataStorage.word_counts, Except.ok.injEq] at h
      exact h ▸ hsr 0
    · simp only [NoOpDataStorage.word_counts, Except.ok.injEq] at h
      exact h ▸ hsr (c + 1)
    · simp [NoOpDataStorage.word_counts] at h
    · simp only [NoOpDataStorage.word_counts, Except.ok.injEq] at h
      exact h ▸ hsr (c + 1)

/-- Concrete instantiation of claim C2's amended theorem. -/
theorem word_counts_bound_witness :
    (DataStorage.word_counts voxEnts 2 none).length ≤ 2 ∧
    DataStorage.word_counts voxEnts 0 none = [] ∧
    (synthRange 0).length ≤ 10 :=
  ⟨(word_counts_bound voxEnts 2 none).1,
   (word_counts_bound voxEnts 0 none).2.1,
   (word_counts_bound voxEnts 2 none).2.2 "vox" (synthRange 0) rfl⟩

/-- Claim C2 as stated is refuted by the synthetic implementation: it ignores
`top_n`, so with `n = 0` and no checkpoint it yields all 10 synthetic records
instead of the empty sequence. -/
theorem word_counts_bound_cex :
    NoOpDataStorage.word_counts "vox" 0 none = .ok (synthRange 0) ∧
    (synthRange 0).length = 10 :=
  ⟨rfl, by decide⟩

/-- Claim C3 (amended): for the real `DataStorage`, a partially populated
checkpoint — absent or falsy word, or absent count — behaves identically to
no checkpoint at all.  (`NoOpDataStorage` does not share this fallback; see
the counterexample.) -/
theorem partial_checkpoint_fallback (ents : List WordCount) (n : Nat)
    (w : Option String) (c : Option Nat)
    (h : w = none ∨ w = some "" ∨ c = none) :
    DataStorage.word_counts ents n (some (w, c)) =
      DataStorage.word_counts ents n none := by
  have hp : parse_checkpoint (some (w, c)) = none := by
    rcases h with h | h | h
    · subst h; rfl
    · subst h
      cases c with
      | none => rfl
      | some c => simp [parse_checkpoint]
    · subst h
      cases w with
      | none => rfl
      | some w => rfl
  rw [DataStorage.word_counts, DataStorage.word_counts]
  unfold seekRes
  rw [hp]
  rfl

/-- Concrete instantiation of claim C3's amended theorem: checkpoint
`(None, 5)` on the `"vox"` store behaves like no checkpoint. -/
theorem partial_checkpoint_fallback_witness :
    DataStorage.word_counts voxEnts 10 (some (none, some 5)) =
      DataStorage.word_counts voxEnts 10 none :=
  partial_checkpoint_fallback voxEnts 10 none (some 5) (Or.inl rfl)

/-- Claim C3 as stated is refuted by the synthetic implementation: with the
partially populated checkpoint `(None, 5)`, `NoOpDataStorage.word_counts`
resumes from count 6 instead of falling back to the beginning. -/
theorem partial_checkpoint_fallback_cex :
    NoOpDataStorage.word_counts "vox" 10 (some (none, some 5)) =
      .ok (synthRange 6) ∧
    NoOpDataStorage.word_counts "vox" 10 none = .ok (synthRange 0) ∧
    synthRange 6 ≠ synthRange 0 :=
  ⟨rfl, rfl, by decide⟩

/-- Claim C4: with a fully populated checkpoint `(w, c)` whose composite key
occurs in the store, every record yielded by `DataStorage.word_counts` — in
particular the first — lies strictly after the composite key `(c, w)` in the
(count descending, word ascending) order; no yielded record has composite key
at or before `(c, w)`. -/
theorem resumption_exactness (ents : List WordCount) (n : Nat) (w : String)
    (c : Nat) (hw : w ≠ "") (hocc : (⟨w, c⟩ : WordCount) ∈ ents) :
    ∀ s ∈ DataStorage.word_counts ents n (some (some w, some c)),
      afterKey c w s := by
  intro s hs
  rw [DataStorage.word_counts, seekRes_full ents w c hw] at hs
  have hs2 := List.take_subset n _ hs
  have hs3 := List.of_mem_filter hs2
  simpa using hs3

/-- Concrete instantiation of claim C4's theorem: after checkpoint
`("apple", 30)` on the `"vox"` store, the yielded record `("banana", 20)`
strictly follows the checkpoint key. -/
theorem resumption_exactness_witness : afterKey 30 "apple" ⟨"banana", 20⟩ :=
  resumption_exactness voxEnts 2 "apple" 30 (by decide) (by decide)
    ⟨"banana", 20⟩ (by decide)

/-- Claim C5 is refuted by the code: `BlobStorage.save`'s first statement
evaluates the name `pub_to_url`, which is bound nowhere in the module, so
every call raises `NameError` instead of completing and storing the bytes. -/
theorem blob_save_always_raises (publ bucket : String) (ibytes : List Nat) :
    BlobStorage.save publ bucket ibytes = .error (.nameError "pub_to_url") :=
  rfl

/-- Claim C6: a checkpoint `(w, 0)` with nonempty `w` is treated as fully
present — the code checks `count is not None`, not truthiness — so the query
performs the exclusive composite-key seek after `(0, w)` rather than the
start-from-beginning fallback. -/
theorem checkpoint_zero_count (ents : List WordCount) (n : Nat) (w : String)
    (hw : w ≠ "") :
    parse_checkpoint (some (some w, some 0)) = some (w, 0) ∧
    DataStorage.word_counts ents n (some (some w, some 0)) =
      ((List.insertionSort keyLE ents).filter fun s =>
        decide (afterKey 0 w s)).take n := by
  constructor
  · simp [parse_checkpoint, hw]
  · rw [DataStorage.word_counts, seekRes_full ents w 0 hw]

/-- Concrete instantiation of claim C6's theorem at checkpoint `("apple", 0)`. -/
theorem checkpoint_zero_count_witness :
    parse_checkpoint (some (some "apple", some 0)) = some ("apple", 0) ∧
    DataStorage.word_counts voxEnts 10 (some (some "apple", some 0)) =
      ((List.insertionSort keyLE voxEnts).filter fun s =>
        decide (afterKey 0 "apple" s)).take 10 :=
  checkpoint_zero_count voxEnts 10 "apple" (by decide)

/-- Claim C7: the end-to-end scenario — on the `"vox"` store, the first page
of size 2 is `[("apple",30), ("banana",20)]`, the page after checkpoint
`("apple", 30)` is `[("banana",20), ("cherry",10)]`, and
`image_url_path("vox", "/img/")` is `"/img/"` followed by the lowercase hex
MD5 digest of `"vox"` followed by `".png"`. -/
theorem vox_scenario :
    DataStorage.word_counts voxEnts 2 none = [⟨"apple", 30⟩, ⟨"banana", 20⟩] ∧
    DataStorage.word_counts voxEnts 2 (some (some "apple", some 30)) =
      [⟨"banana", 20⟩, ⟨"cherry", 10⟩] ∧
    md5hex "vox" = "cd9a346bd6528176ced3ddbe105ec4d6" ∧
    image_url_path "vox" "/img/" = "/img/" ++ md5hex "vox" ++ ".png" :=
  ⟨by decide, by decide, by decide, by decide⟩

/-- Claim C8: `image_url_path` depends on its base path only through the
code's normalization — base paths with equal normal forms give equal output
paths for every publication id — and, being a pure function of its arguments,
it returns the identical string on every call with the same arguments. -/
theorem derive_path_normalized (p b1 b2 : String)
    (h : normalize_path b1 = normalize_path b2) :
    image_url_path p b1 = image_url_path p b2 := by
  rw [image_url_path, image_url_path, h]

/-- Concrete instantiation of claim C8's theorem: `"/img/"` and `"//img//"`
normalize alike and give the same path for `"vox"`. -/
theorem derive_path_normalized_witness :
    image_url_path "vox" "/img/" = image_url_path "vox" "//img//" :=
  derive_path_normalized "vox" "/img/" "//img//" (by decide)

/-- Claim C9: `generate_word_cloud` raises the unsupported-format `ValueError`
exactly when the lowercased format is none of `"raw"`, `"image"`, `"bytes"`,
and for each of the three recognized values (in any letter case) it returns
the corresponding representation without error. -/
theorem render_format_dispatch (freqs : List (String × Nat)) (fmt : String)
    (ht wd : Nat) :
    ((∃ e, generate_word_cloud freqs fmt ht wd = .error e) ↔
      pyLower fmt ∉ (["raw", "image", "bytes"] : List String)) ∧
    (pyLower fmt = "raw" →
      generate_word_cloud freqs fmt ht wd = .ok (.raw ⟨ht, wd, freqs⟩)) ∧
    (pyLower fmt = "image" →
      generate_word_cloud freqs fmt ht wd =
        .ok (.image (WordCloudLayout.to_image ⟨ht, wd, freqs⟩))) ∧
    (pyLower fmt = "bytes" →
      generate_word_cloud freqs fmt ht wd =
        .ok (.bytes (image_to_byte_array (WordCloudLayout.to_image
          ⟨ht, wd, freqs⟩) "png"))) := by
  unfold generate_word_cloud
  by_cases h1 : pyLower fmt = "raw"
  · simp [h1]
  · by_cases h2 : pyLower fmt = "image"
    · simp [h1, h2]
    · by_cases h3 : pyLower fmt = "bytes"
      · simp [h1, h2, h3]
      · simp [h1, h2, h3]

/-- Concrete instantiation of claim C9's theorem: format `"RAW"` (uppercase)
returns the raw layout without error. -/
theorem render_format_dispatch_witness :
    generate_word_cloud [("apple", 30)] "RAW" 500 500 =
      .ok (.raw ⟨500, 500, [("apple", 30)]⟩) :=
  (render_format_dispatch [("apple", 30)] "RAW" 500 500).2.1 (by decide)

/-- Claim C10: any checkpoint whose count component is `None` but which is
not exactly `(None, None)` — i.e. whose word component is present, such as
`("apple", None)` or `("", None)` — makes `NoOpDataStorage.word_counts`
raise `TypeError` (from the unconditional `checkpoint[1] + 1`) when first
consumed; it does not fall back to generating from 0. -/
theorem noop_partial_checkpoint_raises (publ : String) (n : Nat) (w : String) :
    NoOpDataStorage.word_counts publ n (some (some w, none)) =
      .error .typeError :=
  rfl
